import Mathlib

/-
Verification of the RPS-Engine collision subsystem.

The definitions below are a shallow embedding of the Python sources
`collisions.py` and `RPS.py`: Python floats are modelled as rationals
(arithmetic is exact; square roots, which are not rational-representable,
are passed as parameters constrained by hypotheses), Python ints as `Int`,
kind strings as `String`.
-/

set_option maxRecDepth 8000

namespace RPSEngine

/-- Entity state slice consumed by `CollisionManager` (`collisions.py`):
float center `(cx, cy)`, collision `radius`, velocity `(vx, vy)` and the
logical `kind` string. -/
structure Ent where
  cx : ℚ
  cy : ℚ
  radius : ℚ
  vx : ℚ
  vy : ℚ
  kind : String
deriving DecidableEq

/-- Default entity used with `List.getD`. -/
def dummyEnt : Ent := ⟨0, 0, 0, 0, 0, ""⟩

instance : Inhabited Ent := ⟨dummyEnt⟩

/-- Squared center distance `dx*dx + dy*dy` as computed by
`CollisionManager._resolve_list` (`dx = B.cx - ax`, `dy = B.cy - ay`). -/
def distSq (A B : Ent) : ℚ :=
  (B.cx - A.cx) * (B.cx - A.cx) + (B.cy - A.cy) * (B.cy - A.cy)

/-- Sum of the two radii (`r_sum = ar + B.radius`). -/
def rSum (A B : Ent) : ℚ := A.radius + B.radius

/-- Narrow-phase test of `_resolve_list`: the pair is processed exactly
when `dist_sq < r_sum * r_sum` (the code `continue`s on
`dist_sq >= r_sum * r_sum`). -/
def collides (A B : Ent) : Prop := distSq A B < rSum A B * rSum A B

instance (A B : Ent) : Decidable (collides A B) := by
  unfold collides
  infer_instance

/-- De-penetration step of `_resolve_list` for one colliding pair.
`dist` is the caller-supplied value of `math.sqrt(dist_sq)` (constrained
by hypotheses in the theorems below).  When the centers coincide
(`dist_sq` not `> 0.0`) the code sets `dist = 1.0` and uses the fixed
normal `(1.0, 0.0)`; the overlap is `(r_sum - dist) * separation_bias`
and A moves by `-0.5*overlap` and B by `+0.5*overlap` along the normal. -/
def sepStep (sep : ℚ) (A B : Ent) (dist : ℚ) : Ent × Ent :=
  let dx := B.cx - A.cx
  let dy := B.cy - A.cy
  let dnn : ℚ × ℚ × ℚ :=
    if 0 < distSq A B then (dist, dx / dist, dy / dist) else (1, 1, 0)
  let ov := (rSum A B - dnn.1) * sep
  ({ A with cx := A.cx - 1/2 * ov * dnn.2.1, cy := A.cy - 1/2 * ov * dnn.2.2 },
   { B with cx := B.cx + 1/2 * ov * dnn.2.1, cy := B.cy + 1/2 * ov * dnn.2.2 })

/-- Velocity update of `_resolve_list` (equal mass): with
`va_n = A.v · n`, `vb_n = B.v · n`, the code sets
`va_n_after = vb_n * restitution`, `vb_n_after = va_n * restitution` and
adds `(after - before) * n` to each velocity. -/
def impulseStep (rest : ℚ) (A B : Ent) (nx ny : ℚ) : Ent × Ent :=
  let va_n := A.vx * nx + A.vy * ny
  let vb_n := B.vx * nx + B.vy * ny
  let va_n_after := vb_n * rest
  let vb_n_after := va_n * rest
  ({ A with vx := A.vx + (va_n_after - va_n) * nx,
            vy := A.vy + (va_n_after - va_n) * ny },
   { B with vx := B.vx + (vb_n_after - vb_n) * nx,
            vy := B.vy + (vb_n_after - vb_n) * ny })

/-- Minimum-speed enforcement `CollisionManager._enforce_min_speed`.
`spd` stands for `math.hypot(S.vx, S.vy)` (hypotheses in the theorems
require `0 ≤ spd` and `spd * spd = vx² + vy²`); `(rc, rs)` stands for the
random unit direction `(cos θ, sin θ)` drawn in the zero-velocity branch
(hypothesis `rc² + rs² = 1`).  The numeric threshold in the code is
`1e-6`. -/
def enforce_min_speed (minSpd : ℚ) (S : Ent) (spd rc rs : ℚ) : Ent :=
  if minSpd ≤ spd then S
  else if spd < 1/1000000 then
    { S with vx := rc * minSpd, vy := rs * minSpd }
  else
    { S with vx := S.vx * (minSpd / spd), vy := S.vy * (minSpd / spd) }

/-- Rule table `CollisionManager._apply_rps_rules`: given the two kinds
`(ka, kb)` it schedules at most one morph; `some (true, k)` means the
second sprite `b` is passed to `_try_morph` with target kind `k`,
`some (false, k)` means the first sprite `a` is.  The winning sprite is
never passed to `_try_morph`, so its kind is untouched. -/
def apply_rps_rules (ka kb : String) : Option (Bool × String) :=
  if ka = "paper" ∧ kb = "stone" then some (true, "paper")
  else if ka = "stone" ∧ kb = "paper" then some (false, "paper")
  else if ka = "stone" ∧ kb = "scissors" then some (true, "stone")
  else if ka = "scissors" ∧ kb = "stone" then some (false, "stone")
  else if ka = "scissors" ∧ kb = "paper" then some (true, "scissors")
  else if ka = "paper" ∧ kb = "scissors" then some (false, "scissors")
  else none

/-- Per-sprite morph state: the logical `kind` and the sprite's entry in
the `_last_morph` ledger (`self._last_morph.get(sid, 0.0)`). -/
structure MorphState where
  kind : String
  last : ℚ
deriving DecidableEq

/-- One invocation of `CollisionManager._try_morph` projected onto a
single sprite: returns the new state and whether a morph was applied.
The code returns early when `(now - last) < morph_cooldown`, then when
the sprite already has the target kind; otherwise it morphs and records
`self._last_morph[sid] = now`. -/
def try_morph (cd : ℚ) (st : MorphState) (target : String) (now : ℚ) :
    MorphState × Bool :=
  if now - st.last < cd then (st, false)
  else if st.kind = target then (st, false)
  else ({ kind := target, last := now }, true)

/-- Folds a sequence of `_try_morph` invocations `(target, now)` over one
sprite's morph state, counting how many morphs were applied. -/
def try_morph_run (cd : ℚ) (st : MorphState) :
    List (String × ℚ) → MorphState × Nat
  | [] => (st, 0)
  | p :: ps =>
    let r := try_morph cd st p.1 p.2
    let rest := try_morph_run cd r.1 ps
    (rest.1, (if r.2 then 1 else 0) + rest.2)

/- ------------------------------------------------------------------ -/
/- Claim C1: de-penetration restores separation                        -/
/- ------------------------------------------------------------------ -/

/-- Claim C1 (amended): for every colliding pair whose centers do not
exactly coincide, after the de-penetration step the distance between the
centers is at least the sum of the radii (exactly, in this exact-rational
model), for every separation_bias strictly greater than 1.  Stated on
squared distances so no square root of the post-state is needed. -/
theorem sepStep_restores_distance (sep dist : ℚ) (A B : Ent)
    (hsep : 1 < sep) (hcol : collides A B)
    (hpos : 0 < distSq A B) (hsq : dist * dist = distSq A B)
    (hd0 : 0 < dist) :
    rSum A B * rSum A B ≤ distSq (sepStep sep A B dist).1 (sepStep sep A B dist).2 := by
  have hne : dist ≠ 0 := ne_of_gt hd0
  have hdd : (B.cx - A.cx) * (B.cx - A.cx) + (B.cy - A.cy) * (B.cy - A.cy)
      = dist * dist := by
    rw [hsq]; rfl
  have key : distSq (sepStep sep A B dist).1 (sepStep sep A B dist).2
      = (dist + (rSum A B - dist) * sep) ^ 2 := by
    have hpos' : 0 < (B.cx - A.cx) * (B.cx - A.cx) + (B.cy - A.cy) * (B.cy - A.cy) :=
      hpos
    simp only [sepStep, distSq]
    rw [if_pos hpos']
    field_simp
    linear_combination (2 * (dist + (rSum A B - dist) * sep)) ^ 2 * hdd
  rw [key]
  have hlt : dist * dist < rSum A B * rSum A B := by
    rw [hsq]; exact hcol
  have h1 : 0 < (rSum A B - dist) * (rSum A B + dist) := by nlinarith
  have hsep0 : (0 : ℚ) < sep := by linarith
  have hsep1 : (0 : ℚ) < sep - 1 := by linarith
  rcases lt_trichotomy (rSum A B - dist) 0 with h | h | h
  · have h2 : rSum A B + dist < 0 := by
      by_contra hc
      push_neg at hc
      nlinarith [mul_nonneg hc (le_of_lt (neg_pos.mpr h))]
    have h4 : (rSum A B - dist) * sep < 0 := mul_neg_of_neg_of_pos h hsep0
    have h5 : rSum A B + dist + (rSum A B - dist) * sep < 0 := by linarith
    have h6 : (rSum A B - dist) * (sep - 1) < 0 := mul_neg_of_neg_of_pos h hsep1
    have h3 : 0 < ((rSum A B - dist) * (sep - 1)) *
        (rSum A B + dist + (rSum A B - dist) * sep) := mul_pos_of_neg_of_neg h6 h5
    nlinarith [h3]
  · rw [h, zero_mul] at h1
    exact absurd h1 (lt_irrefl 0)
  · have h2 : 0 < rSum A B + dist := by
      by_contra hc
      push_neg at hc
      nlinarith [mul_nonneg (le_of_lt h) (neg_nonneg.mpr hc)]
    have h4 : 0 < (rSum A B - dist) * sep := mul_pos h hsep0
    have h5 : 0 < rSum A B + dist + (rSum A B - dist) * sep := by linarith
    have h6 : 0 < (rSum A B - dist) * (sep - 1) := mul_pos h hsep1
    have h3 : 0 < ((rSum A B - dist) * (sep - 1)) *
        (rSum A B + dist + (rSum A B - dist) * sep) := mul_pos h6 h5
    nlinarith [h3]

/-- Claim C1 witness: a concrete colliding, non-coincident pair.  A at
(0,0) with radius 5/2, B at (3,4) with radius 3: distance 5, summed radii
11/2, so they overlap; with separation_bias 2 the theorem applies. -/
theorem sepStep_restores_distance_witness :
    (1 : ℚ) < 2 ∧
    collides ⟨0, 0, 5/2, 0, 0, "paper"⟩ ⟨3, 4, 3, 0, 0, "stone"⟩ ∧
    0 < distSq ⟨0, 0, 5/2, 0, 0, "paper"⟩ ⟨3, 4, 3, 0, 0, "stone"⟩ ∧
    (5 : ℚ) * 5 = distSq ⟨0, 0, 5/2, 0, 0, "paper"⟩ ⟨3, 4, 3, 0, 0, "stone"⟩ ∧
    (0 : ℚ) < 5 ∧
    rSum ⟨0, 0, 5/2, 0, 0, "paper"⟩ ⟨3, 4, 3, 0, 0, "stone"⟩ *
        rSum ⟨0, 0, 5/2, 0, 0, "paper"⟩ ⟨3, 4, 3, 0, 0, "stone"⟩ ≤
      distSq (sepStep 2 ⟨0, 0, 5/2, 0, 0, "paper"⟩ ⟨3, 4, 3, 0, 0, "stone"⟩ 5).1
        (sepStep 2 ⟨0, 0, 5/2, 0, 0, "paper"⟩ ⟨3, 4, 3, 0, 0, "stone"⟩ 5).2 :=
  ⟨by norm_num,
   by norm_num [collides, distSq, rSum],
   by norm_num [distSq],
   by norm_num [distSq],
   by norm_num,
   sepStep_restores_distance 2 5 _ _
     (by norm_num)
     (by norm_num [collides, distSq, rSum])
     (by norm_num [distSq])
     (by norm_num [distSq])
     (by norm_num)⟩

/-- Claim C1 counterexample: with exactly coincident centers the code
substitutes `dist = 1.0` into the overlap formula, so two stacked circles
of radius 10 with separation_bias 101/100 end up at squared distance
(19 * 101/100)^2 = 368.2561 < 400: the post-resolution distance is below
the summed radii, refuting the claim in the degenerate case. -/
theorem sepStep_coincident_counterexample :
    collides ⟨0, 0, 10, 0, 0, "paper"⟩ ⟨0, 0, 10, 0, 0, "stone"⟩ ∧
    distSq (sepStep (101/100) ⟨0, 0, 10, 0, 0, "paper"⟩ ⟨0, 0, 10, 0, 0, "stone"⟩ 0).1
        (sepStep (101/100) ⟨0, 0, 10, 0, 0, "paper"⟩ ⟨0, 0, 10, 0, 0, "stone"⟩ 0).2 <
      rSum ⟨0, 0, 10, 0, 0, "paper"⟩ ⟨0, 0, 10, 0, 0, "stone"⟩ *
        rSum ⟨0, 0, 10, 0, 0, "paper"⟩ ⟨0, 0, 10, 0, 0, "stone"⟩ := by
  constructor
  · norm_num [collides, distSq, rSum]
  · norm_num [sepStep, distSq, rSum]

/- ------------------------------------------------------------------ -/
/- Claim C2: impulse exchanges normal components                       -/
/- ------------------------------------------------------------------ -/

/-- Claim C2: for any unit collision normal, the velocity update leaves
both tangential components (dot product with the tangent `(-ny, nx)`)
unchanged; each entity's post-impulse normal component equals the other
entity's pre-impulse normal component scaled by the restitution, and for
restitution 1 the normal components are exactly exchanged. -/
theorem impulseStep_swaps_normal_components (rest nx ny : ℚ) (A B : Ent)
    (hunit : nx * nx + ny * ny = 1) :
    ((impulseStep rest A B nx ny).1.vx * (-ny) + (impulseStep rest A B nx ny).1.vy * nx
        = A.vx * (-ny) + A.vy * nx) ∧
    ((impulseStep rest A B nx ny).2.vx * (-ny) + (impulseStep rest A B nx ny).2.vy * nx
        = B.vx * (-ny) + B.vy * nx) ∧
    ((impulseStep rest A B nx ny).1.vx * nx + (impulseStep rest A B nx ny).1.vy * ny
        = rest * (B.vx * nx + B.vy * ny)) ∧
    ((impulseStep rest A B nx ny).2.vx * nx + (impulseStep rest A B nx ny).2.vy * ny
        = rest * (A.vx * nx + A.vy * ny)) ∧
    (rest = 1 →
      (impulseStep rest A B nx ny).1.vx * nx + (impulseStep rest A B nx ny).1.vy * ny
          = B.vx * nx + B.vy * ny ∧
      (impulseStep rest A B nx ny).2.vx * nx + (impulseStep rest A B nx ny).2.vy * ny
          = A.vx * nx + A.vy * ny) := by
  refine ⟨?_, ?_, ?_, ?_, ?_⟩
  · simp only [impulseStep]; ring
  · simp only [impulseStep]; ring
  · simp only [impulseStep]
    linear_combination ((B.vx * nx + B.vy * ny) * rest - (A.vx * nx + A.vy * ny)) * hunit
  · simp only [impulseStep]
    linear_combination ((A.vx * nx + A.vy * ny) * rest - (B.vx * nx + B.vy * ny)) * hunit
  · intro h
    subst h
    constructor
    · simp only [impulseStep]
      linear_combination (B.vx * nx + B.vy * ny - (A.vx * nx + A.vy * ny)) * hunit
    · simp only [impulseStep]
      linear_combination (A.vx * nx + A.vy * ny - (B.vx * nx + B.vy * ny)) * hunit

/-- Claim C2 witness: a head-on pair along the +X normal with
restitution 3/4. -/
theorem impulseStep_swaps_normal_components_witness :
    (1 : ℚ) * 1 + 0 * 0 = 1 ∧
    ((impulseStep (3/4) ⟨0, 0, 1, 7, 2, "a"⟩ ⟨2, 0, 1, -5, 3, "b"⟩ 1 0).1.vx * (-0) +
        (impulseStep (3/4) ⟨0, 0, 1, 7, 2, "a"⟩ ⟨2, 0, 1, -5, 3, "b"⟩ 1 0).1.vy * 1
        = (7 : ℚ) * (-0) + 2 * 1 ∧
      (impulseStep (3/4) ⟨0, 0, 1, 7, 2, "a"⟩ ⟨2, 0, 1, -5, 3, "b"⟩ 1 0).2.vx * (-0) +
        (impulseStep (3/4) ⟨0, 0, 1, 7, 2, "a"⟩ ⟨2, 0, 1, -5, 3, "b"⟩ 1 0).2.vy * 1
        = (-5 : ℚ) * (-0) + 3 * 1 ∧
      (impulseStep (3/4) ⟨0, 0, 1, 7, 2, "a"⟩ ⟨2, 0, 1, -5, 3, "b"⟩ 1 0).1.vx * 1 +
        (impulseStep (3/4) ⟨0, 0, 1, 7, 2, "a"⟩ ⟨2, 0, 1, -5, 3, "b"⟩ 1 0).1.vy * 0
        = (3/4 : ℚ) * ((-5) * 1 + 3 * 0) ∧
      (impulseStep (3/4) ⟨0, 0, 1, 7, 2, "a"⟩ ⟨2, 0, 1, -5, 3, "b"⟩ 1 0).2.vx * 1 +
        (impulseStep (3/4) ⟨0, 0, 1, 7, 2, "a"⟩ ⟨2, 0, 1, -5, 3, "b"⟩ 1 0).2.vy * 0
        = (3/4 : ℚ) * (7 * 1 + 2 * 0) ∧
      ((3/4 : ℚ) = 1 →
        (impulseStep (3/4) ⟨0, 0, 1, 7, 2, "a"⟩ ⟨2, 0, 1, -5, 3, "b"⟩ 1 0).1.vx * 1 +
          (impulseStep (3/4) ⟨0, 0, 1, 7, 2, "a"⟩ ⟨2, 0, 1, -5, 3, "b"⟩ 1 0).1.vy * 0
          = (-5 : ℚ) * 1 + 3 * 0 ∧
        (impulseStep (3/4) ⟨0, 0, 1, 7, 2, "a"⟩ ⟨2, 0, 1, -5, 3, "b"⟩ 1 0).2.vx * 1 +
          (impulseStep (3/4) ⟨0, 0, 1, 7, 2, "a"⟩ ⟨2, 0, 1, -5, 3, "b"⟩ 1 0).2.vy * 0
          = (7 : ℚ) * 1 + 2 * 0)) :=
  ⟨by norm_num,
   impulseStep_swaps_normal_components (3/4) 1 0
     ⟨0, 0, 1, 7, 2, "a"⟩ ⟨2, 0, 1, -5, 3, "b"⟩ (by norm_num)⟩

/- ------------------------------------------------------------------ -/
/- Claim C3: cyclic dominance rule table                               -/
/- ------------------------------------------------------------------ -/

/-- Claim C3: for each ordered dominance pair the rule engine schedules
exactly the losing entity (and no other) to morph to the winning kind —
`some (true, k)` schedules sprite `b`, `some (false, k)` schedules sprite
`a`, and the unscheduled (winning) sprite's kind is untouched because it
is never passed to `_try_morph`; when both kinds are equal, nothing is
scheduled. -/
theorem apply_rps_rules_cyclic_dominance :
    apply_rps_rules "paper" "stone" = some (true, "paper") ∧
    apply_rps_rules "stone" "paper" = some (false, "paper") ∧
    apply_rps_rules "stone" "scissors" = some (true, "stone") ∧
    apply_rps_rules "scissors" "stone" = some (false, "stone") ∧
    apply_rps_rules "scissors" "paper" = some (true, "scissors") ∧
    apply_rps_rules "paper" "scissors" = some (false, "scissors") ∧
    ∀ k : String, apply_rps_rules k k = none := by
  refine ⟨by simp [apply_rps_rules], by simp [apply_rps_rules],
    by simp [apply_rps_rules], by simp [apply_rps_rules],
    by simp [apply_rps_rules], by simp [apply_rps_rules], ?_⟩
  intro k
  unfold apply_rps_rules
  split_ifs with h1 h2 h3 h4 h5 h6
  · exact absurd (h1.1 ▸ h1.2) (by simp)
  · exact absurd (h2.1 ▸ h2.2) (by simp)
  · exact absurd (h3.1 ▸ h3.2) (by simp)
  · exact absurd (h4.1 ▸ h4.2) (by simp)
  · exact absurd (h5.1 ▸ h5.2) (by simp)
  · exact absurd (h6.1 ▸ h6.2) (by simp)
  · rfl

/- ------------------------------------------------------------------ -/
/- Claim C4: cooldown enforcement                                      -/
/- ------------------------------------------------------------------ -/

/-- Helper: a sprite state whose ledger entry is `t` is left completely
unchanged, with zero morphs applied, by any sequence of `_try_morph`
invocations whose times all satisfy `now - t < morph_cooldown`. -/
theorem try_morph_run_frozen (cd t : ℚ) (k : String)
    (invs : List (String × ℚ)) (h : ∀ p ∈ invs, p.2 - t < cd) :
    try_morph_run cd ⟨k, t⟩ invs = (⟨k, t⟩, 0) := by
  induction invs with
  | nil => rfl
  | cons p ps ih =>
    have hp : p.2 - t < cd := h p (List.mem_cons_self p ps)
    have hstep : try_morph cd ⟨k, t⟩ p.1 p.2 = (⟨k, t⟩, false) := by
      unfold try_morph
      rw [if_pos hp]
    have hrest : try_morph_run cd ⟨k, t⟩ ps = (⟨k, t⟩, 0) :=
      ih (fun q hq => h q (List.mem_cons_of_mem p hq))
    simp [try_morph_run, hstep, hrest]

/-- Claim C4: once a transmutation is applied at time `t` (recording `t`
in the ledger), any sequence of subsequent invocations at times `now`
with `now - t < morph_cooldown` applies no transmutation and leaves both
the kind and the ledger entry unchanged; moreover any single invocation
dropped by the cooldown gate or by the already-same-kind check returns
the state unchanged, while an ungated invocation with a different target
kind morphs and records `now`. -/
theorem try_morph_cooldown_enforcement (cd t now2 now3 : ℚ)
    (k target2 target3 : String) (invs : List (String × ℚ))
    (st2 st3 : MorphState)
    (h1 : ∀ p ∈ invs, p.2 - t < cd)
    (h2 : now2 - st2.last < cd ∨ st2.kind = target2)
    (h3 : cd ≤ now3 - st3.last) (h4 : st3.kind ≠ target3) :
    try_morph_run cd ⟨k, t⟩ invs = (⟨k, t⟩, 0) ∧
    try_morph cd st2 target2 now2 = (st2, false) ∧
    try_morph cd st3 target3 now3 = (⟨target3, now3⟩, true) := by
  refine ⟨try_morph_run_frozen cd t k invs h1, ?_, ?_⟩
  · unfold try_morph
    split_ifs with ha hb
    · rfl
    · rfl
    · rcases h2 with h2 | h2
      · exact absurd h2 ha
      · exact absurd h2 hb
  · unfold try_morph
    rw [if_neg (not_lt.mpr h3), if_neg h4]

/-- Claim C4 witness: a sprite morphed to "stone" at t = 10 with cooldown
6/100 ignores two qualifying collisions at 10.01 and 10.02; a cooldown
drop and an already-same-kind drop leave the state unchanged; an ungated
morph applies and records its time. -/
theorem try_morph_cooldown_enforcement_witness :
    (∀ p ∈ [("paper", (1001/100 : ℚ)), ("paper", 1002/100)], p.2 - 10 < (6/100 : ℚ)) ∧
    ((1001/100 : ℚ) - (10 : ℚ) < 6/100 ∨ ("stone" : String) = "paper") ∧
    ((6/100 : ℚ) ≤ 11 - 10) ∧ ("stone" : String) ≠ "paper" ∧
    (try_morph_run (6/100) ⟨"stone", 10⟩ [("paper", 1001/100), ("paper", 1002/100)]
        = (⟨"stone", 10⟩, 0) ∧
      try_morph (6/100) ⟨"stone", 10⟩ "paper" (1001/100) = (⟨"stone", 10⟩, false) ∧
      try_morph (6/100) ⟨"stone", 10⟩ "paper" 11 = (⟨"paper", 11⟩, true)) :=
  ⟨by norm_num,
   Or.inl (by norm_num),
   by norm_num,
   by simp,
   try_morph_cooldown_enforcement (6/100) 10 (1001/100) 11 "stone" "paper" "paper"
     [("paper", 1001/100), ("paper", 1002/100)] ⟨"stone", 10⟩ ⟨"stone", 10⟩
     (by norm_num)
     (Or.inl (by norm_num))
     (by norm_num)
     (by simp)⟩

/- ------------------------------------------------------------------ -/
/- Claim C5: minimum-speed enforcement                                 -/
/- ------------------------------------------------------------------ -/

/-- Claim C5: minimum-speed enforcement leaves a velocity of magnitude at
least `min_speed` unchanged; rescales a slower but numerically nonzero
velocity (magnitude at least the 1e-6 threshold) by the positive factor
`min_speed / spd`, preserving direction, to squared magnitude exactly
`min_speed²`; replaces a numerically zero velocity by the random unit
direction `(rc, rs)` at magnitude exactly `min_speed`; and in all cases
the result's squared speed is at least `min_speed²`. -/
theorem enforce_min_speed_spec (minSpd spd rc rs : ℚ) (S : Ent)
    (hspd : 0 ≤ spd) (hsq : spd * spd = S.vx * S.vx + S.vy * S.vy)
    (hdir : rc * rc + rs * rs = 1) (hmin : 0 ≤ minSpd) :
    (minSpd ≤ spd → enforce_min_speed minSpd S spd rc rs = S) ∧
    (spd < minSpd → 1/1000000 ≤ spd →
      enforce_min_speed minSpd S spd rc rs
          = { S with vx := S.vx * (minSpd / spd), vy := S.vy * (minSpd / spd) } ∧
      0 < minSpd / spd ∧
      (enforce_min_speed minSpd S spd rc rs).vx * (enforce_min_speed minSpd S spd rc rs).vx +
          (enforce_min_speed minSpd S spd rc rs).vy * (enforce_min_speed minSpd S spd rc rs).vy
        = minSpd * minSpd) ∧
    (spd < minSpd → spd < 1/1000000 →
      enforce_min_speed minSpd S spd rc rs
          = { S with vx := rc * minSpd, vy := rs * minSpd } ∧
      (enforce_min_speed minSpd S spd rc rs).vx * (enforce_min_speed minSpd S spd rc rs).vx +
          (enforce_min_speed minSpd S spd rc rs).vy * (enforce_min_speed minSpd S spd rc rs).vy
        = minSpd * minSpd) ∧
    (minSpd * minSpd ≤
      (enforce_min_speed minSpd S spd rc rs).vx * (enforce_min_speed minSpd S spd rc rs).vx +
        (enforce_min_speed minSpd S spd rc rs).vy * (enforce_min_speed minSpd S spd rc rs).vy) := by
  refine ⟨?_, ?_, ?_, ?_⟩
  · intro h
    unfold enforce_min_speed
    rw [if_pos h]
  · intro hslow hnz
    have hcond : ¬ minSpd ≤ spd := not_le.mpr hslow
    have hcond2 : ¬ spd < 1/1000000 := not_lt.mpr hnz
    have hspd0 : (0 : ℚ) < spd := lt_of_lt_of_le (by norm_num) hnz
    have hmin0 : (0 : ℚ) < minSpd := lt_of_le_of_lt hspd0.le hslow
    have hE : enforce_min_speed minSpd S spd rc rs
        = { S with vx := S.vx * (minSpd / spd), vy := S.vy * (minSpd / spd) } := by
      unfold enforce_min_speed
      rw [if_neg hcond, if_neg hcond2]
    refine ⟨hE, div_pos hmin0 hspd0, ?_⟩
    rw [hE]
    have hne : spd ≠ 0 := ne_of_gt hspd0
    field_simp
    linear_combination (-(minSpd ^ 2)) * hsq
  · intro hslow hz
    have hcond : ¬ minSpd ≤ spd := not_le.mpr hslow
    have hE : enforce_min_speed minSpd S spd rc rs
        = { S with vx := rc * minSpd, vy := rs * minSpd } := by
      unfold enforce_min_speed
      rw [if_neg hcond, if_pos hz]
    refine ⟨hE, ?_⟩
    rw [hE]
    linear_combination minSpd * minSpd * hdir
  · unfold enforce_min_speed
    split_ifs with h1 h2
    · nlinarith
    · have heq : rc * minSpd * (rc * minSpd) + rs * minSpd * (rs * minSpd)
          = minSpd * minSpd := by
        linear_combination minSpd * minSpd * hdir
      simpa using heq.ge
    · have hspd0 : (0 : ℚ) < spd := lt_of_lt_of_le (by norm_num) (not_lt.mp h2)
      have hne : spd ≠ 0 := ne_of_gt hspd0
      have heq : S.vx * (minSpd / spd) * (S.vx * (minSpd / spd)) +
          S.vy * (minSpd / spd) * (S.vy * (minSpd / spd)) = minSpd * minSpd := by
        field_simp
        linear_combination (-(minSpd ^ 2)) * hsq
      simpa using heq.ge

/-- Claim C5 witness: velocity (3, 4) (speed 5) below min_speed 60 is
rescaled by 12 to (36, 48), squared speed 3600. -/
theorem enforce_min_speed_spec_witness :
    (0 : ℚ) ≤ 5 ∧ (5 : ℚ) * 5 = 3 * 3 + 4 * 4 ∧ (1 : ℚ) * 1 + 0 * 0 = 1 ∧ (0 : ℚ) ≤ 60 ∧
    (((60 : ℚ) ≤ 5 → enforce_min_speed 60 ⟨0, 0, 1, 3, 4, "a"⟩ 5 1 0 = ⟨0, 0, 1, 3, 4, "a"⟩) ∧
      ((5 : ℚ) < 60 → 1/1000000 ≤ (5 : ℚ) →
        enforce_min_speed 60 ⟨0, 0, 1, 3, 4, "a"⟩ 5 1 0
            = { (⟨0, 0, 1, 3, 4, "a"⟩ : Ent) with vx := 3 * ((60 : ℚ) / 5), vy := 4 * ((60 : ℚ) / 5) } ∧
        0 < (60 : ℚ) / 5 ∧
        (enforce_min_speed 60 ⟨0, 0, 1, 3, 4, "a"⟩ 5 1 0).vx * (enforce_min_speed 60 ⟨0, 0, 1, 3, 4, "a"⟩ 5 1 0).vx +
            (enforce_min_speed 60 ⟨0, 0, 1, 3, 4, "a"⟩ 5 1 0).vy * (enforce_min_speed 60 ⟨0, 0, 1, 3, 4, "a"⟩ 5 1 0).vy
          = 60 * 60) ∧
      ((5 : ℚ) < 60 → (5 : ℚ) < 1/1000000 →
        enforce_min_speed 60 ⟨0, 0, 1, 3, 4, "a"⟩ 5 1 0
            = { (⟨0, 0, 1, 3, 4, "a"⟩ : Ent) with vx := 1 * (60 : ℚ), vy := 0 * (60 : ℚ) } ∧
        (enforce_min_speed 60 ⟨0, 0, 1, 3, 4, "a"⟩ 5 1 0).vx * (enforce_min_speed 60 ⟨0, 0, 1, 3, 4, "a"⟩ 5 1 0).vx +
            (enforce_min_speed 60 ⟨0, 0, 1, 3, 4, "a"⟩ 5 1 0).vy * (enforce_min_speed 60 ⟨0, 0, 1, 3, 4, "a"⟩ 5 1 0).vy
          = 60 * 60) ∧
      ((60 : ℚ) * 60 ≤
        (enforce_min_speed 60 ⟨0, 0, 1, 3, 4, "a"⟩ 5 1 0).vx * (enforce_min_speed 60 ⟨0, 0, 1, 3, 4, "a"⟩ 5 1 0).vx +
          (enforce_min_speed 60 ⟨0, 0, 1, 3, 4, "a"⟩ 5 1 0).vy * (enforce_min_speed 60 ⟨0, 0, 1, 3, 4, "a"⟩ 5 1 0).vy)) :=
  ⟨by norm_num, by norm_num, by norm_num, by norm_num,
   enforce_min_speed_spec 60 5 1 0 ⟨0, 0, 1, 3, 4, "a"⟩
     (by norm_num) (by norm_num) (by norm_num) (by norm_num)⟩

/- ------------------------------------------------------------------ -/
/- Broad phase: spatial hash grid of resolve_all                       -/
/- ------------------------------------------------------------------ -/

/-- Grid cell key of a sprite: `(int(s.cx // cs), int(s.cy // cs))`;
Python float floor-division is mathematical floor (cell_size positive). -/
def cellOf (cs : ℚ) (e : Ent) : ℤ × ℤ := (⌊e.cx / cs⌋, ⌊e.cy / cs⌋)

/-- Keys of the `defaultdict` grid in insertion order (first occurrence
of each distinct cell while iterating the sprites). -/
def occupiedCells (cs : ℚ) (es : List Ent) : List (ℤ × ℤ) :=
  (es.map (cellOf cs)).foldl (fun acc c => if c ∈ acc then acc else acc ++ [c]) []

/-- Index list `grid[cell]`: the sprite indices whose center falls in the
cell, in increasing index order (the order they are appended). -/
def bucket (cs : ℚ) (es : List Ent) (c : ℤ × ℤ) : List ℕ :=
  (List.range es.length).filter (fun i => decide (cellOf cs (es.getD i dummyEnt) = c))

/-- The 3x3 neighborhood offset list of `resolve_all`. -/
def neighborOffsets : List (ℤ × ℤ) :=
  [(-1, -1), (0, -1), (1, -1), (-1, 0), (0, 0), (1, 0), (-1, 1), (0, 1), (1, 1)]

/-- Python `min` on int pairs (lexicographic; ties keep the first). -/
def cellMin (a b : ℤ × ℤ) : ℤ × ℤ :=
  if a.1 < b.1 ∨ (a.1 = b.1 ∧ a.2 ≤ b.2) then a else b

/-- Python `max` on int pairs (lexicographic). -/
def cellMax (a b : ℤ × ℤ) : ℤ × ℤ :=
  if a.1 < b.1 ∨ (a.1 = b.1 ∧ a.2 ≤ b.2) then b else a

/-- Loop state of `resolve_all`: the `visited` set of canonical cell-pair
keys (as a list, in insertion order) and, for each processed key, the
candidate index list handed to `_resolve_list`. -/
structure ScanState where
  visited : List ((ℤ × ℤ) × (ℤ × ℤ))
  sets : List (List ℕ)

/-- Body of the inner loop of `resolve_all` for the pair
`p = (cell, (dx, dy))`: skip if the neighbor cell `c2` is unoccupied,
dedup on the canonical key `(min cell c2, max cell c2)`, otherwise record
the key and the merged candidate list (`idxs` alone when `c2 == cell`,
else `idxs + grid[c2]`). -/
def scanStep (cs : ℚ) (es : List Ent) (cells : List (ℤ × ℤ))
    (st : ScanState) (p : (ℤ × ℤ) × (ℤ × ℤ)) : ScanState :=
  let c2 : ℤ × ℤ := (p.1.1 + p.2.1, p.1.2 + p.2.2)
  if c2 ∈ cells then
    let key := (cellMin p.1 c2, cellMax p.1 c2)
    if key ∈ st.visited then st
    else
      { visited := st.visited ++ [key],
        sets := st.sets ++
          [if c2 = p.1 then bucket cs es p.1 else bucket cs es p.1 ++ bucket cs es c2] }
  else st

/-- The full double loop of `resolve_all`: over every occupied cell, over
the 9 neighbor offsets. -/
def resolveAllScan (cs : ℚ) (es : List Ent) : ScanState :=
  (occupiedCells cs es).foldl
    (fun st cell =>
      neighborOffsets.foldl
        (fun st2 d => scanStep cs es (occupiedCells cs es) st2 (cell, d)) st)
    ⟨[], []⟩

/-- Chebyshev adjacency of two cell keys: they differ by at most 1 in
each coordinate. -/
def cellsAdj (a b : ℤ × ℤ) : Prop :=
  a.1 - b.1 ≤ 1 ∧ b.1 - a.1 ≤ 1 ∧ a.2 - b.2 ≤ 1 ∧ b.2 - a.2 ≤ 1

/-- Flattening of the nested loops of `resolve_all` into one pair list,
used to reason about the fold. -/
def pairList : List (ℤ × ℤ) → List ((ℤ × ℤ) × (ℤ × ℤ))
  | [] => []
  | c :: rest => neighborOffsets.map (fun d => (c, d)) ++ pairList rest

/-- Invariant of the `resolve_all` scan: visited keys are distinct, one
candidate set per key, every visited key's two buckets are contained in
some recorded candidate set, and every recorded candidate set consists of
the indices of two adjacent occupied cells. -/
def ScanInv (cs : ℚ) (es : List Ent) (st : ScanState) : Prop :=
  st.visited.Nodup ∧
  st.sets.length = st.visited.length ∧
  (∀ key ∈ st.visited, ∃ l ∈ st.sets,
    (∀ i ∈ bucket cs es key.1, i ∈ l) ∧ (∀ i ∈ bucket cs es key.2, i ∈ l)) ∧
  (∀ l ∈ st.sets, ∃ c c2 : ℤ × ℤ, cellsAdj c c2 ∧
    ∀ i ∈ l, i ∈ bucket cs es c ∨ i ∈ bucket cs es c2)

/-- Membership in the first-occurrence dedup fold building the grid
keys. -/
theorem mem_distinctFold (l acc : List (ℤ × ℤ)) (c : ℤ × ℤ) :
    c ∈ l.foldl (fun a x => if x ∈ a then a else a ++ [x]) acc ↔ c ∈ acc ∨ c ∈ l := by
  induction l generalizing acc with
  | nil => simp
  | cons a l ih =>
    simp only [List.foldl_cons]
    by_cases h : a ∈ acc
    · rw [if_pos h, ih]
      simp only [List.mem_cons]
      constructor
      · rintro (hc | hc)
        · exact Or.inl hc
        · exact Or.inr (Or.inr hc)
      · rintro (hc | rfl | hc)
        · exact Or.inl hc
        · exact Or.inl h
        · exact Or.inr hc
    · rw [if_neg h, ih]
      simp only [List.mem_append, List.mem_singleton, List.mem_cons]
      tauto

/-- Cells occupied by some sprite are exactly the grid keys. -/
theorem mem_occupiedCells (cs : ℚ) (es : List Ent) (c : ℤ × ℤ) :
    c ∈ occupiedCells cs es ↔ c ∈ es.map (cellOf cs) := by
  unfold occupiedCells
  rw [mem_distinctFold]
  simp

/-- Bucket membership. -/
theorem mem_bucket (cs : ℚ) (es : List Ent) (c : ℤ × ℤ) (i : ℕ) :
    i ∈ bucket cs es c ↔ i < es.length ∧ cellOf cs (es.getD i dummyEnt) = c := by
  simp [bucket, List.mem_filter, List.mem_range]

/-- The canonical key is one of the two orderings of its arguments. -/
theorem cellMinMax_cases (a b : ℤ × ℤ) :
    (cellMin a b = a ∧ cellMax a b = b) ∨ (cellMin a b = b ∧ cellMax a b = a) := by
  unfold cellMin cellMax
  split_ifs <;> simp

/-- Every neighbor offset has both components in [-1, 1]. -/
theorem neighborOffsets_small (d : ℤ × ℤ) (h : d ∈ neighborOffsets) :
    -1 ≤ d.1 ∧ d.1 ≤ 1 ∧ -1 ≤ d.2 ∧ d.2 ≤ 1 := by
  fin_cases h <;> norm_num

/-- Every offset pair with both components in [-1, 1] is a neighbor
offset. -/
theorem mem_neighborOffsets_of (d : ℤ × ℤ) (h1 : -1 ≤ d.1) (h2 : d.1 ≤ 1)
    (h3 : -1 ≤ d.2) (h4 : d.2 ≤ 1) : d ∈ neighborOffsets := by
  obtain ⟨d1, d2⟩ := d
  simp only at h1 h2 h3 h4
  have hd1 : d1 = -1 ∨ d1 = 0 ∨ d1 = 1 := by omega
  have hd2 : d2 = -1 ∨ d2 = 0 ∨ d2 = 1 := by omega
  rcases hd1 with rfl | rfl | rfl <;> rcases hd2 with rfl | rfl | rfl <;>
    simp [neighborOffsets]

/-- A cell is adjacent to itself plus a neighbor offset. -/
theorem cellsAdj_offset (c : ℤ × ℤ) (d : ℤ × ℤ) (h : d ∈ neighborOffsets) :
    cellsAdj c (c.1 + d.1, c.2 + d.2) := by
  obtain ⟨h1, h2, h3, h4⟩ := neighborOffsets_small d h
  refine ⟨?_, ?_, ?_, ?_⟩ <;> simp <;> omega

/-- Adjacency is reflexive. -/
theorem cellsAdj_refl (c : ℤ × ℤ) : cellsAdj c c := by
  refine ⟨?_, ?_, ?_, ?_⟩ <;> omega

/-- Adjacency is symmetric. -/
theorem cellsAdj_symm (a b : ℤ × ℤ) (h : cellsAdj a b) : cellsAdj b a := by
  obtain ⟨h1, h2, h3, h4⟩ := h
  exact ⟨h2, h1, h4, h3⟩

/-- Overlapping circles with summed radii at most `cs` land in cells at
Chebyshev distance at most 1: the floor quotients differ by at most 1. -/
theorem floor_adjacent (cs x y : ℚ) (hcs : 0 < cs) (h1 : x - y < cs) (h2 : y - x < cs) :
    ⌊x / cs⌋ - ⌊y / cs⌋ ≤ 1 ∧ ⌊y / cs⌋ - ⌊x / cs⌋ ≤ 1 := by
  have key : ∀ u v : ℚ, u - v < cs → ⌊u / cs⌋ - ⌊v / cs⌋ ≤ 1 := by
    intro u v huv
    have ha : (u - v) / cs < 1 := (div_lt_one hcs).mpr huv
    have hb : v / cs < ⌊v / cs⌋ + 1 := Int.lt_floor_add_one _
    have hsub : (u - v) / cs = u / cs - v / cs := sub_div u v cs
    have hx : u / cs < ((⌊v / cs⌋ + 2 : ℤ) : ℚ) := by
      push_cast
      linarith
    have := Int.floor_lt.mpr hx
    omega
  exact ⟨key x y h1, key y x h2⟩

/-- `visited` only grows along the scan. -/
theorem visited_mono_step (cs : ℚ) (es : List Ent) (cells : List (ℤ × ℤ))
    (st : ScanState) (p : (ℤ × ℤ) × (ℤ × ℤ)) (key : (ℤ × ℤ) × (ℤ × ℤ))
    (h : key ∈ st.visited) : key ∈ (scanStep cs es cells st p).visited := by
  simp only [scanStep]
  split_ifs <;> simp [h]

/-- `visited` only grows along a fold of scan steps. -/
theorem visited_mono_fold (cs : ℚ) (es : List Ent) (cells : List (ℤ × ℤ))
    (L : List ((ℤ × ℤ) × (ℤ × ℤ))) (st : ScanState) (key : (ℤ × ℤ) × (ℤ × ℤ))
    (h : key ∈ st.visited) :
    key ∈ (L.foldl (scanStep cs es cells) st).visited := by
  induction L generalizing st with
  | nil => exact h
  | cons p L ih =>
    exact ih _ (visited_mono_step cs es cells st p key h)

/-- A pair whose neighbor cell is occupied leaves its canonical key in
`visited` after its own step. -/
theorem key_in_step (cs : ℚ) (es : List Ent) (cells : List (ℤ × ℤ))
    (st : ScanState) (c d : ℤ × ℤ)
    (hc2 : ((c.1 + d.1, c.2 + d.2) : ℤ × ℤ) ∈ cells) :
    (cellMin c (c.1 + d.1, c.2 + d.2), cellMax c (c.1 + d.1, c.2 + d.2)) ∈
      (scanStep cs es cells st (c, d)).visited := by
  simp only [scanStep]
  rw [if_pos hc2]
  by_cases h : (cellMin c (c.1 + d.1, c.2 + d.2), cellMax c (c.1 + d.1, c.2 + d.2)) ∈ st.visited
  · rw [if_pos h]
    exact h
  · rw [if_neg h]
    simp

/-- Every occupied-neighbor pair occurring in the scanned list ends with
its canonical key in `visited`. -/
theorem key_processed (cs : ℚ) (es : List Ent) (cells : List (ℤ × ℤ))
    (L : List ((ℤ × ℤ) × (ℤ × ℤ))) (st : ScanState) (c d : ℤ × ℤ)
    (hmem : (c, d) ∈ L) (hc2 : ((c.1 + d.1, c.2 + d.2) : ℤ × ℤ) ∈ cells) :
    (cellMin c (c.1 + d.1, c.2 + d.2), cellMax c (c.1 + d.1, c.2 + d.2)) ∈
      (L.foldl (scanStep cs es cells) st).visited := by
  induction L generalizing st with
  | nil => exact absurd hmem (List.not_mem_nil _)
  | cons p L ih =>
    rcases List.mem_cons.mp hmem with heq | hmem'
    · subst heq
      simp only [List.foldl_cons]
      exact visited_mono_fold cs es cells L _ _ (key_in_step cs es cells st c d hc2)
    · exact ih _ hmem'

/-- One scan step preserves the invariant, provided the offset is one of
the 9 neighbor offsets. -/
theorem scanInv_step (cs : ℚ) (es : List Ent) (cells : List (ℤ × ℤ))
    (st : ScanState) (p : (ℤ × ℤ) × (ℤ × ℤ)) (hp : p.2 ∈ neighborOffsets)
    (h : ScanInv cs es st) : ScanInv cs es (scanStep cs es cells st p) := by
  obtain ⟨hnd, hlen, hkeys, hsets⟩ := h
  simp only [scanStep]
  split_ifs with hocc hvis hcc
  · exact ⟨hnd, hlen, hkeys, hsets⟩
  · -- new key, same cell: candidate list is the single bucket
    refine ⟨?_, ?_, ?_, ?_⟩
    · refine List.Nodup.append hnd (List.nodup_singleton _) ?_
      intro a ha hb
      simp only [List.mem_singleton] at hb
      subst hb
      exact hvis ha
    · simp [hlen]
    · intro key hkey
      rcases List.mem_append.mp hkey with hold | hnew
      · obtain ⟨l, hl, hsub⟩ := hkeys key hold
        exact ⟨l, List.mem_append_left _ hl, hsub⟩
      · simp only [List.mem_singleton] at hnew
        subst hnew
        refine ⟨bucket cs es p.1,
          List.mem_append_right _ (List.mem_singleton.mpr rfl), ?_⟩
        rcases cellMinMax_cases p.1 (p.1.1 + p.2.1, p.1.2 + p.2.2) with ⟨hm, hM⟩ | ⟨hm, hM⟩
        · rw [hm, hM]
          exact ⟨fun i hi => hi, fun i hi => hcc ▸ hi⟩
        · rw [hm, hM]
          exact ⟨fun i hi => hcc ▸ hi, fun i hi => hi⟩
    · intro l hl
      rcases List.mem_append.mp hl with hold | hnew
      · exact hsets l hold
      · simp only [List.mem_singleton] at hnew
        subst hnew
        exact ⟨p.1, (p.1.1 + p.2.1, p.1.2 + p.2.2), cellsAdj_offset p.1 p.2 hp,
          fun i hi => Or.inl hi⟩
  · -- new key, distinct neighbor cell: candidate list merges both buckets
    refine ⟨?_, ?_, ?_, ?_⟩
    · refine List.Nodup.append hnd (List.nodup_singleton _) ?_
      intro a ha hb
      simp only [List.mem_singleton] at hb
      subst hb
      exact hvis ha
    · simp [hlen]
    · intro key hkey
      rcases List.mem_append.mp hkey with hold | hnew
      · obtain ⟨l, hl, hsub⟩ := hkeys key hold
        exact ⟨l, List.mem_append_left _ hl, hsub⟩
      · simp only [List.mem_singleton] at hnew
        subst hnew
        refine ⟨bucket cs es p.1 ++ bucket cs es (p.1.1 + p.2.1, p.1.2 + p.2.2),
          List.mem_append_right _ (List.mem_singleton.mpr rfl), ?_⟩
        rcases cellMinMax_cases p.1 (p.1.1 + p.2.1, p.1.2 + p.2.2) with ⟨hm, hM⟩ | ⟨hm, hM⟩
        · rw [hm, hM]
          exact ⟨fun i hi => List.mem_append_left _ hi,
            fun i hi => List.mem_append_right _ hi⟩
        · rw [hm, hM]
          exact ⟨fun i hi => List.mem_append_right _ hi,
            fun i hi => List.mem_append_left _ hi⟩
    · intro l hl
      rcases List.mem_append.mp hl with hold | hnew
      · exact hsets l hold
      · simp only [List.mem_singleton] at hnew
        subst hnew
        exact ⟨p.1, (p.1.1 + p.2.1, p.1.2 + p.2.2), cellsAdj_offset p.1 p.2 hp,
          fun i hi => List.mem_append.mp hi⟩
  · exact ⟨hnd, hlen, hkeys, hsets⟩

/-- A fold of scan steps over neighbor-offset pairs preserves the
invariant. -/
theorem scanInv_fold (cs : ℚ) (es : List Ent) (cells : List (ℤ × ℤ))
    (L : List ((ℤ × ℤ) × (ℤ × ℤ))) (hL : ∀ p ∈ L, p.2 ∈ neighborOffsets)
    (st : ScanState) (h : ScanInv cs es st) :
    ScanInv cs es (L.foldl (scanStep cs es cells) st) := by
  induction L generalizing st with
  | nil => exact h
  | cons p L ih =>
    exact ih (fun q hq => hL q (List.mem_cons_of_mem p hq)) _
      (scanInv_step cs es cells st p (hL p (List.mem_cons_self p L)) h)

/-- All pairs in the flattened pair list carry neighbor offsets. -/
theorem pairList_offsets (cells : List (ℤ × ℤ)) :
    ∀ p ∈ pairList cells, p.2 ∈ neighborOffsets := by
  induction cells with
  | nil => intro p hp; exact absurd hp (List.not_mem_nil _)
  | cons c rest ih =>
    intro p hp
    rcases List.mem_append.mp hp with hp | hp
    · obtain ⟨d, hd, rfl⟩ := List.mem_map.mp hp
      exact hd
    · exact ih p hp

/-- Every (occupied cell, neighbor offset) pair occurs in the flattened
pair list. -/
theorem mem_pairList (cells : List (ℤ × ℤ)) (c d : ℤ × ℤ)
    (hc : c ∈ cells) (hd : d ∈ neighborOffsets) : (c, d) ∈ pairList cells := by
  induction cells with
  | nil => exact absurd hc (List.not_mem_nil _)
  | cons a rest ih =>
    rcases List.mem_cons.mp hc with rfl | hc'
    · exact List.mem_append_left _ (List.mem_map.mpr ⟨d, hd, rfl⟩)
    · exact List.mem_append_right _ (ih hc')

/-- Nested loops over a key list equal the fold over the flattened pair
list (the grid parameter of the step is held fixed). -/
theorem scan_nested_eq (cs : ℚ) (es : List Ent) (cells : List (ℤ × ℤ))
    (L : List (ℤ × ℤ)) (st : ScanState) :
    L.foldl (fun st2 cell => neighborOffsets.foldl
      (fun st3 d => scanStep cs es cells st3 (cell, d)) st2) st
    = (pairList L).foldl (scanStep cs es cells) st := by
  induction L generalizing st with
  | nil => rfl
  | cons c rest ih =>
    simp only [List.foldl_cons, pairList, List.foldl_append, List.foldl_map]
    exact ih _

/-- The nested loops of `resolve_all` compute the fold over the flattened
pair list. -/
theorem resolveAllScan_eq_foldl (cs : ℚ) (es : List Ent) :
    resolveAllScan cs es =
      (pairList (occupiedCells cs es)).foldl
        (scanStep cs es (occupiedCells cs es)) ⟨[], []⟩ :=
  scan_nested_eq cs es (occupiedCells cs es) (occupiedCells cs es) ⟨[], []⟩

/- ------------------------------------------------------------------ -/
/- Claim C6: broad phase finds every overlapping pair                  -/
/- ------------------------------------------------------------------ -/

/-- Claim C6: for any two overlapping entities, when `cell_size` is at
least their summed radii their grid cell keys differ by at most 1 per
coordinate; the pair then appears together in some candidate set handed
to `_resolve_list` by `resolve_all` (so it is narrow-phase tested);
conversely every candidate set only joins two adjacent cells, so indices
in non-adjacent cells are never tested together; and the canonical
`(min, max)` visited keys are pairwise distinct with exactly one
candidate set per key, so each unordered cell pair is merged and
processed at most once. -/
theorem broad_phase_adjacency (cs : ℚ) (es : List Ent) (i j : ℕ)
    (hi : i < es.length) (hj : j < es.length) (hcs : 0 < cs)
    (hrad : 0 ≤ rSum (es.getD i dummyEnt) (es.getD j dummyEnt))
    (hfit : rSum (es.getD i dummyEnt) (es.getD j dummyEnt) ≤ cs)
    (hover : collides (es.getD i dummyEnt) (es.getD j dummyEnt)) :
    cellsAdj (cellOf cs (es.getD i dummyEnt)) (cellOf cs (es.getD j dummyEnt)) ∧
    (∃ l ∈ (resolveAllScan cs es).sets, i ∈ l ∧ j ∈ l) ∧
    (∀ l ∈ (resolveAllScan cs es).sets, ∀ a ∈ l, ∀ b ∈ l,
      cellsAdj (cellOf cs (es.getD a dummyEnt)) (cellOf cs (es.getD b dummyEnt))) ∧
    (resolveAllScan cs es).visited.Nodup ∧
    (resolveAllScan cs es).sets.length = (resolveAllScan cs es).visited.length := by
  have hInv : ScanInv cs es (resolveAllScan cs es) := by
    rw [resolveAllScan_eq_foldl]
    exact scanInv_fold cs es _ _ (pairList_offsets _) _
      ⟨List.nodup_nil, rfl,
        fun key hkey => absurd hkey (List.not_mem_nil _),
        fun l hl => absurd hl (List.not_mem_nil _)⟩
  obtain ⟨hnd, hlen, hkeys, hsets⟩ := hInv
  have hov : distSq (es.getD i dummyEnt) (es.getD j dummyEnt)
      < rSum (es.getD i dummyEnt) (es.getD j dummyEnt) *
          rSum (es.getD i dummyEnt) (es.getD j dummyEnt) := hover
  have hcs2 : rSum (es.getD i dummyEnt) (es.getD j dummyEnt) *
      rSum (es.getD i dummyEnt) (es.getD j dummyEnt) ≤ cs * cs :=
    mul_le_mul hfit hfit hrad hcs.le
  have hdsq : ((es.getD j dummyEnt).cx - (es.getD i dummyEnt).cx) *
        ((es.getD j dummyEnt).cx - (es.getD i dummyEnt).cx) +
      ((es.getD j dummyEnt).cy - (es.getD i dummyEnt).cy) *
        ((es.getD j dummyEnt).cy - (es.getD i dummyEnt).cy) < cs * cs := by
    have : distSq (es.getD i dummyEnt) (es.getD j dummyEnt)
        = ((es.getD j dummyEnt).cx - (es.getD i dummyEnt).cx) *
            ((es.getD j dummyEnt).cx - (es.getD i dummyEnt).cx) +
          ((es.getD j dummyEnt).cy - (es.getD i dummyEnt).cy) *
            ((es.getD j dummyEnt).cy - (es.getD i dummyEnt).cy) := rfl
    linarith [hov, hcs2, this.symm.le]
  have hx1 : (es.getD j dummyEnt).cx - (es.getD i dummyEnt).cx < cs := by
    nlinarith [sq_nonneg ((es.getD j dummyEnt).cy - (es.getD i dummyEnt).cy),
      sq_nonneg ((es.getD j dummyEnt).cx - (es.getD i dummyEnt).cx)]
  have hx2 : (es.getD i dummyEnt).cx - (es.getD j dummyEnt).cx < cs := by
    nlinarith [sq_nonneg ((es.getD j dummyEnt).cy - (es.getD i dummyEnt).cy),
      sq_nonneg ((es.getD j dummyEnt).cx - (es.getD i dummyEnt).cx)]
  have hy1 : (es.getD j dummyEnt).cy - (es.getD i dummyEnt).cy < cs := by
    nlinarith [sq_nonneg ((es.getD j dummyEnt).cy - (es.getD i dummyEnt).cy),
      sq_nonneg ((es.getD j dummyEnt).cx - (es.getD i dummyEnt).cx)]
  have hy2 : (es.getD i dummyEnt).cy - (es.getD j dummyEnt).cy < cs := by
    nlinarith [sq_nonneg ((es.getD j dummyEnt).cy - (es.getD i dummyEnt).cy),
      sq_nonneg ((es.getD j dummyEnt).cx - (es.getD i dummyEnt).cx)]
  have hflx := floor_adjacent cs (es.getD j dummyEnt).cx (es.getD i dummyEnt).cx hcs hx1 hx2
  have hfly := floor_adjacent cs (es.getD j dummyEnt).cy (es.getD i dummyEnt).cy hcs hy1 hy2
  have hadjAB : cellsAdj (cellOf cs (es.getD i dummyEnt)) (cellOf cs (es.getD j dummyEnt)) :=
    ⟨hflx.2, hflx.1, hfly.2, hfly.1⟩
  refine ⟨hadjAB, ?_, ?_, hnd, hlen⟩
  · -- the pair is merged into some processed candidate set
    have hAmem : cellOf cs (es.getD i dummyEnt) ∈ occupiedCells cs es := by
      rw [mem_occupiedCells]
      refine List.mem_map.mpr ⟨es.getD i dummyEnt, ?_, rfl⟩
      rw [List.getD_eq_getElem es dummyEnt hi]
      exact List.getElem_mem hi
    have hBmem : cellOf cs (es.getD j dummyEnt) ∈ occupiedCells cs es := by
      rw [mem_occupiedCells]
      refine List.mem_map.mpr ⟨es.getD j dummyEnt, ?_, rfl⟩
      rw [List.getD_eq_getElem es dummyEnt hj]
      exact List.getElem_mem hj
    have hdmem : (((cellOf cs (es.getD j dummyEnt)).1 - (cellOf cs (es.getD i dummyEnt)).1,
        (cellOf cs (es.getD j dummyEnt)).2 - (cellOf cs (es.getD i dummyEnt)).2) : ℤ × ℤ)
        ∈ neighborOffsets := by
      obtain ⟨q1, q2, q3, q4⟩ := hadjAB
      refine mem_neighborOffsets_of _ ?_ ?_ ?_ ?_ <;> dsimp only <;> omega
    have heq : cellOf cs (es.getD j dummyEnt) =
        ((cellOf cs (es.getD i dummyEnt)).1 +
          (((cellOf cs (es.getD j dummyEnt)).1 - (cellOf cs (es.getD i dummyEnt)).1,
            (cellOf cs (es.getD j dummyEnt)).2 - (cellOf cs (es.getD i dummyEnt)).2) : ℤ × ℤ).1,
         (cellOf cs (es.getD i dummyEnt)).2 +
          (((cellOf cs (es.getD j dummyEnt)).1 - (cellOf cs (es.getD i dummyEnt)).1,
            (cellOf cs (es.getD j dummyEnt)).2 - (cellOf cs (es.getD i dummyEnt)).2) : ℤ × ℤ).2) := by
      rw [Prod.ext_iff]
      constructor <;> simp
    have hkp := key_processed cs es (occupiedCells cs es)
      (pairList (occupiedCells cs es)) ⟨[], []⟩
      (cellOf cs (es.getD i dummyEnt))
      (((cellOf cs (es.getD j dummyEnt)).1 - (cellOf cs (es.getD i dummyEnt)).1,
        (cellOf cs (es.getD j dummyEnt)).2 - (cellOf cs (es.getD i dummyEnt)).2) : ℤ × ℤ)
      (mem_pairList _ _ _ hAmem hdmem)
      (by rw [← heq]; exact hBmem)
    rw [← heq] at hkp
    rw [← resolveAllScan_eq_foldl] at hkp
    obtain ⟨l, hl, hsub1, hsub2⟩ := hkeys _ hkp
    have hib : i ∈ bucket cs es (cellOf cs (es.getD i dummyEnt)) :=
      (mem_bucket cs es _ i).mpr ⟨hi, rfl⟩
    have hjb : j ∈ bucket cs es (cellOf cs (es.getD j dummyEnt)) :=
      (mem_bucket cs es _ j).mpr ⟨hj, rfl⟩
    rcases cellMinMax_cases (cellOf cs (es.getD i dummyEnt))
        (cellOf cs (es.getD j dummyEnt)) with ⟨hm, hM⟩ | ⟨hm, hM⟩
    · rw [hm] at hsub1
      rw [hM] at hsub2
      exact ⟨l, hl, hsub1 i hib, hsub2 j hjb⟩
    · rw [hm] at hsub1
      rw [hM] at hsub2
      exact ⟨l, hl, hsub2 i hib, hsub1 j hjb⟩
  · -- only adjacent cells are ever tested together
    intro l hl a ha b hb
    obtain ⟨c, c2, hadj, hmem'⟩ := hsets l hl
    have hca := hmem' a ha
    have hcb := hmem' b hb
    rcases hca with hca | hca <;> rcases hcb with hcb | hcb <;>
      rw [((mem_bucket cs es _ a).mp hca).2, ((mem_bucket cs es _ b).mp hcb).2] <;>
      first
        | exact cellsAdj_refl _
        | exact hadj
        | exact cellsAdj_symm _ _ hadj

/-- Concrete overlapping entity for the broad-phase witness. -/
def entA6 : Ent := ⟨0, 0, 1, 0, 0, "paper"⟩

/-- Concrete overlapping entity for the broad-phase witness. -/
def entB6 : Ent := ⟨1, 0, 1, 0, 0, "stone"⟩

/-- Claim C6 witness: two unit circles at distance 1 with cell_size 3. -/
theorem broad_phase_adjacency_witness :
    ((0 : ℕ) < [entA6, entB6].length ∧ (1 : ℕ) < [entA6, entB6].length ∧ (0 : ℚ) < 3 ∧
      0 ≤ rSum ([entA6, entB6].getD 0 dummyEnt) ([entA6, entB6].getD 1 dummyEnt) ∧
      rSum ([entA6, entB6].getD 0 dummyEnt) ([entA6, entB6].getD 1 dummyEnt) ≤ 3 ∧
      collides ([entA6, entB6].getD 0 dummyEnt) ([entA6, entB6].getD 1 dummyEnt)) ∧
    (cellsAdj (cellOf 3 ([entA6, entB6].getD 0 dummyEnt))
        (cellOf 3 ([entA6, entB6].getD 1 dummyEnt)) ∧
      (∃ l ∈ (resolveAllScan 3 [entA6, entB6]).sets, 0 ∈ l ∧ 1 ∈ l) ∧
      (∀ l ∈ (resolveAllScan 3 [entA6, entB6]).sets, ∀ a ∈ l, ∀ b ∈ l,
        cellsAdj (cellOf 3 ([entA6, entB6].getD a dummyEnt))
          (cellOf 3 ([entA6, entB6].getD b dummyEnt))) ∧
      (resolveAllScan 3 [entA6, entB6]).visited.Nodup ∧
      (resolveAllScan 3 [entA6, entB6]).sets.length =
        (resolveAllScan 3 [entA6, entB6]).visited.length) :=
  ⟨⟨by norm_num, by norm_num, by norm_num,
    by norm_num [entA6, entB6, rSum],
    by norm_num [entA6, entB6, rSum],
    by norm_num [entA6, entB6, collides, distSq, rSum]⟩,
   broad_phase_adjacency 3 [entA6, entB6] 0 1
     (by norm_num) (by norm_num) (by norm_num)
     (by norm_num [entA6, entB6, rSum])
     (by norm_num [entA6, entB6, rSum])
     (by norm_num [entA6, entB6, collides, distSq, rSum])⟩

/- ------------------------------------------------------------------ -/
/- RPS.py sprite: rect-synced motion, wall bounce, morphing            -/
/- ------------------------------------------------------------------ -/

/-- Pygame-style rectangle, stored as `(left, top, w, h)`; `centerx` is
the derived value `left + w // 2` and assigning `centerx = v` sets
`left = v - w // 2` (pygame stores only the corner). -/
structure PyRect where
  left : ℤ
  top : ℤ
  w : ℤ
  h : ℤ
deriving DecidableEq

/-- Pygame `rect.centerx`. -/
def rcenterx (r : PyRect) : ℤ := r.left + r.w / 2

/-- Pygame `rect.centery`. -/
def rcentery (r : PyRect) : ℤ := r.top + r.h / 2

/-- Pygame `rect.right`. -/
def rright (r : PyRect) : ℤ := r.left + r.w

/-- Pygame `rect.bottom`. -/
def rbottom (r : PyRect) : ℤ := r.top + r.h

/-- Python `int(x)` on a float: truncation toward zero. -/
def pyInt (x : ℚ) : ℤ := if 0 ≤ x then ⌊x⌋ else ⌈x⌉

/-- State slice of an `RPS.py` sprite: arena bounds, the requested icon
`size`, the cached blit rect, the authoritative float center, the
collision radius, the velocity and the logical kind.  The pygame image
surface is abstracted away (only its size, always `self.size` after
scaling, is relevant). -/
structure Sprite where
  arena : PyRect
  size : ℤ × ℤ
  rect : PyRect
  cx : ℚ
  cy : ℚ
  radius : ℚ
  vx : ℚ
  vy : ℚ
  kind : String
deriving DecidableEq

/-- `RPS.set_center`: store the float center and sync the rect via
`rect.centerx = int(x)`, `rect.centery = int(y)`. -/
def set_center (s : Sprite) (x y : ℚ) : Sprite :=
  { s with
    cx := x
    cy := y
    rect := { s.rect with left := pyInt x - s.rect.w / 2, top := pyInt y - s.rect.h / 2 } }

/-- `RPS.update`: integrate `center += velocity * dt` (through
`set_center`), then independently per axis clamp the crossing bounding
edge to the arena edge, re-derive the float coordinate from the snapped
rect, and negate that velocity component (`vx *= -1.0`). -/
def update (s : Sprite) (dt : ℚ) : Sprite :=
  let s0 := set_center s (s.cx + s.vx * dt) (s.cy + s.vy * dt)
  let s1 :=
    if s0.rect.left ≤ s0.arena.left then
      let r := { s0.rect with left := s0.arena.left }
      { s0 with rect := r, cx := (rcenterx r : ℚ), vx := s0.vx * (-1) }
    else if rright s0.rect ≥ rright s0.arena then
      let r := { s0.rect with left := rright s0.arena - s0.rect.w }
      { s0 with rect := r, cx := (rcenterx r : ℚ), vx := s0.vx * (-1) }
    else s0
  if s1.rect.top ≤ s1.arena.top then
    let r := { s1.rect with top := s1.arena.top }
    { s1 with rect := r, cy := (rcentery r : ℚ), vy := s1.vy * (-1) }
  else if rbottom s1.rect ≥ rbottom s1.arena then
    let r := { s1.rect with top := rbottom s1.arena - s1.rect.h }
    { s1 with rect := r, cy := (rcentery r : ℚ), vy := s1.vy * (-1) }
  else s1

/-- `RPS.morph_to`: set the kind, reload and rescale the image to
`self.size` (so the new rect has dimensions `self.size`), rebuild the
rect around the previous integer center, re-derive `cx, cy` from the new
rect's integer center, and recompute
`radius = 0.45 * max(rect.width, rect.height)`. -/
def morph_to (s : Sprite) (kind : String) : Sprite :=
  let c := (rcenterx s.rect, rcentery s.rect)
  let r : PyRect := ⟨c.1 - s.size.1 / 2, c.2 - s.size.2 / 2, s.size.1, s.size.2⟩
  { s with
    kind := kind
    rect := r
    cx := (rcenterx r : ℚ)
    cy := (rcentery r : ℚ)
    radius := 45/100 * (max r.w r.h : ℚ) }

/-- Truncation toward zero is monotone. -/
theorem pyInt_mono (x y : ℚ) (h : x ≤ y) : pyInt x ≤ pyInt y := by
  unfold pyInt
  by_cases h1 : 0 ≤ x <;> by_cases h2 : 0 ≤ y
  · rw [if_pos h1, if_pos h2]
    exact Int.floor_le_floor h
  · exact absurd (le_trans h1 h) h2
  · rw [if_neg h1, if_pos h2]
    have hx : x ≤ ((0 : ℤ) : ℚ) := by exact_mod_cast le_of_lt (not_le.mp h1)
    calc (⌈x⌉ : ℤ) ≤ 0 := Int.ceil_le.mpr hx
      _ ≤ ⌊y⌋ := Int.floor_nonneg.mpr h2
  · rw [if_neg h1, if_neg h2]
    exact Int.ceil_le_ceil h

/- ------------------------------------------------------------------ -/
/- Claim C7: morph preserves the physical footprint                    -/
/- ------------------------------------------------------------------ -/

/-- Claim C7 (amended): under the rect-size and radius sync invariants
maintained by the constructor, `set_size` and `morph_to` itself,
`morph_to` changes only the kind and the visual handle as far as the
physical footprint is concerned: velocity, radius, bounding-box
dimensions and the integer rect center are exactly preserved — but the
float center is re-derived from the integer rect center, so `cx, cy` are
preserved exactly only when they already equal their integer-snapped
values. -/
theorem morph_to_preserves_footprint (s : Sprite) (k : String)
    (hw : s.rect.w = s.size.1) (hh : s.rect.h = s.size.2)
    (hr : s.radius = 45/100 * (max s.rect.w s.rect.h : ℚ)) :
    (morph_to s k).vx = s.vx ∧ (morph_to s k).vy = s.vy ∧
    (morph_to s k).radius = s.radius ∧
    (morph_to s k).rect.w = s.rect.w ∧ (morph_to s k).rect.h = s.rect.h ∧
    rcenterx (morph_to s k).rect = rcenterx s.rect ∧
    rcentery (morph_to s k).rect = rcentery s.rect ∧
    (morph_to s k).cx = (rcenterx s.rect : ℚ) ∧
    (morph_to s k).cy = (rcentery s.rect : ℚ) ∧
    (morph_to s k).kind = k := by
  refine ⟨rfl, rfl, ?_, hw.symm, hh.symm, ?_, ?_, ?_, ?_, rfl⟩
  · simp only [morph_to]
    rw [hr, hw, hh]
  · simp only [morph_to, rcenterx]
    omega
  · simp only [morph_to, rcentery]
    omega
  · simp only [morph_to, rcenterx]
    have : s.rect.left + s.rect.w / 2 - s.size.1 / 2 + s.size.1 / 2
        = s.rect.left + s.rect.w / 2 := by omega
    exact_mod_cast congrArg (fun z : ℤ => (z : ℚ)) this
  · simp only [morph_to, rcentery]
    have : s.rect.top + s.rect.h / 2 - s.size.2 / 2 + s.size.2 / 2
        = s.rect.top + s.rect.h / 2 := by omega
    exact_mod_cast congrArg (fun z : ℤ => (z : ℚ)) this

/-- Concrete sprite with a fractional float center, produced by
`set_center` (which snaps the rect but keeps the float). -/
def spriteC7 : Sprite :=
  set_center ⟨⟨0, 0, 800, 600⟩, (150, 150), ⟨0, 0, 150, 150⟩, 75, 75, 135/2, 50, 60, "stone"⟩
    (21/2) (21/2)

/-- Claim C7 counterexample: `morph_to` re-derives the float center from
the integer rect center (`self.cx = float(self.rect.centerx)`), so a
sprite whose float center is 10.5 comes out of a morph with float center
10.0: the position is not exactly unchanged. -/
theorem morph_to_center_counterexample :
    spriteC7.cx = 21/2 ∧ (morph_to spriteC7 "paper").cx = 10 ∧
    (morph_to spriteC7 "paper").cx ≠ spriteC7.cx := by
  refine ⟨rfl, ?_, ?_⟩ <;>
    norm_num [spriteC7, morph_to, set_center, rcenterx, rcentery, pyInt]

/-- Claim C7 witness: a synced sprite morphs with footprint preserved. -/
theorem morph_to_preserves_footprint_witness :
    ((⟨⟨0, 0, 800, 600⟩, (150, 150), ⟨0, 0, 150, 150⟩, 75, 75, 135/2, 50, 60, "stone"⟩ : Sprite).rect.w
        = (⟨⟨0, 0, 800, 600⟩, (150, 150), ⟨0, 0, 150, 150⟩, 75, 75, 135/2, 50, 60, "stone"⟩ : Sprite).size.1 ∧
      (⟨⟨0, 0, 800, 600⟩, (150, 150), ⟨0, 0, 150, 150⟩, 75, 75, 135/2, 50, 60, "stone"⟩ : Sprite).rect.h
        = (⟨⟨0, 0, 800, 600⟩, (150, 150), ⟨0, 0, 150, 150⟩, 75, 75, 135/2, 50, 60, "stone"⟩ : Sprite).size.2 ∧
      (⟨⟨0, 0, 800, 600⟩, (150, 150), ⟨0, 0, 150, 150⟩, 75, 75, 135/2, 50, 60, "stone"⟩ : Sprite).radius
        = 45/100 * (max (⟨⟨0, 0, 800, 600⟩, (150, 150), ⟨0, 0, 150, 150⟩, 75, 75, 135/2, 50, 60, "stone"⟩ : Sprite).rect.w
            (⟨⟨0, 0, 800, 600⟩, (150, 150), ⟨0, 0, 150, 150⟩, 75, 75, 135/2, 50, 60, "stone"⟩ : Sprite).rect.h : ℚ)) ∧
    ((morph_to ⟨⟨0, 0, 800, 600⟩, (150, 150), ⟨0, 0, 150, 150⟩, 75, 75, 135/2, 50, 60, "stone"⟩ "paper").vx = 50 ∧
      (morph_to ⟨⟨0, 0, 800, 600⟩, (150, 150), ⟨0, 0, 150, 150⟩, 75, 75, 135/2, 50, 60, "stone"⟩ "paper").radius = 135/2 ∧
      (morph_to ⟨⟨0, 0, 800, 600⟩, (150, 150), ⟨0, 0, 150, 150⟩, 75, 75, 135/2, 50, 60, "stone"⟩ "paper").kind = "paper") := by
  have h := morph_to_preserves_footprint
    ⟨⟨0, 0, 800, 600⟩, (150, 150), ⟨0, 0, 150, 150⟩, 75, 75, 135/2, 50, 60, "stone"⟩ "paper"
    (by norm_num) (by norm_num) (by norm_num)
  exact ⟨⟨by norm_num, by norm_num, by norm_num⟩,
    h.1.trans rfl, h.2.2.1.trans (by norm_num), h.2.2.2.2.2.2.2.2.2⟩

/- ------------------------------------------------------------------ -/
/- Claim C8: wall bounce clamps the edge and reflects velocity         -/
/- ------------------------------------------------------------------ -/

/-- Claim C8: an entity whose box's left edge is at or beyond the
arena's left edge, moving left at vx = -50, has after one `update(dt)`
its left edge clamped exactly to the arena's left edge and vx = +50;
the two axes are checked and clamped independently, so if the top edge
is likewise at or beyond the arena's top edge with upward motion, the
same step also clamps the top edge and negates vy. -/
theorem update_left_bounce (s : Sprite) (dt : ℚ)
    (hvx : s.vx = -50) (hdt : 0 ≤ dt)
    (hsync : s.rect.left = pyInt s.cx - s.rect.w / 2)
    (hleft : s.rect.left ≤ s.arena.left) :
    ((update s dt).rect.left = s.arena.left ∧ (update s dt).vx = 50) ∧
    (s.vy ≤ 0 → s.rect.top = pyInt s.cy - s.rect.h / 2 → s.rect.top ≤ s.arena.top →
      (update s dt).rect.top = s.arena.top ∧ (update s dt).vy = -s.vy) := by
  have hxle : s.cx + s.vx * dt ≤ s.cx := by
    rw [hvx]
    nlinarith
  have hcond1 : pyInt (s.cx + s.vx * dt) - s.rect.w / 2 ≤ s.arena.left := by
    have h1 := pyInt_mono _ _ hxle
    linarith [hsync, hleft]
  simp only [update, set_center]
  rw [if_pos hcond1]
  constructor
  · split_ifs with hv1 hv2
    · exact ⟨rfl, by rw [hvx]; norm_num⟩
    · exact ⟨rfl, by rw [hvx]; norm_num⟩
    · exact ⟨rfl, by rw [hvx]; norm_num⟩
  · intro hvy hsyncv htop
    have hyle : s.cy + s.vy * dt ≤ s.cy := by nlinarith
    have hcond2 : pyInt (s.cy + s.vy * dt) - s.rect.h / 2 ≤ s.arena.top := by
      have h2 := pyInt_mono _ _ hyle
      linarith [hsyncv, htop]
    rw [if_pos hcond2]
    exact ⟨rfl, by ring⟩

/-- Concrete sprite at the arena's top-left corner moving left and up. -/
def spriteC8 : Sprite :=
  ⟨⟨0, 0, 800, 600⟩, (150, 150), ⟨0, 0, 150, 150⟩, 75, 75, 135/2, -50, -30, "stone"⟩

/-- Claim C8 witness: one integration step from the corner bounces on
both axes in the same step. -/
theorem update_left_bounce_witness :
    (spriteC8.vx = -50 ∧ (0 : ℚ) ≤ 1/10 ∧
      spriteC8.rect.left = pyInt spriteC8.cx - spriteC8.rect.w / 2 ∧
      spriteC8.rect.left ≤ spriteC8.arena.left ∧
      spriteC8.vy ≤ 0 ∧
      spriteC8.rect.top = pyInt spriteC8.cy - spriteC8.rect.h / 2 ∧
      spriteC8.rect.top ≤ spriteC8.arena.top) ∧
    ((update spriteC8 (1/10)).rect.left = spriteC8.arena.left ∧
      (update spriteC8 (1/10)).vx = 50) ∧
    ((update spriteC8 (1/10)).rect.top = spriteC8.arena.top ∧
      (update spriteC8 (1/10)).vy = -spriteC8.vy) :=
  ⟨⟨by norm_num [spriteC8], by norm_num, by norm_num [spriteC8, pyInt],
    by norm_num [spriteC8], by norm_num [spriteC8], by norm_num [spriteC8, pyInt],
    by norm_num [spriteC8]⟩,
   (update_left_bounce spriteC8 (1/10) (by norm_num [spriteC8]) (by norm_num)
     (by norm_num [spriteC8, pyInt]) (by norm_num [spriteC8])).1,
   (update_left_bounce spriteC8 (1/10) (by norm_num [spriteC8]) (by norm_num)
     (by norm_num [spriteC8, pyInt]) (by norm_num [spriteC8])).2
     (by norm_num [spriteC8]) (by norm_num [spriteC8, pyInt]) (by norm_num [spriteC8])⟩

/- ------------------------------------------------------------------ -/
/- Claim C9: constructor validation                                    -/
/- ------------------------------------------------------------------ -/

/-- Configuration and state stored by `CollisionManager.__init__`:
the image path map, whether an asset cache was supplied, and the five
numeric tunables, plus the (initially empty) per-sprite `_last_morph`
ledger.  The pygame asset cache object itself is abstracted to its
presence. -/
structure CollisionManager where
  img_map : List (String × String)
  assets_present : Bool
  cell_size : ℤ
  restitution : ℚ
  separation_bias : ℚ
  min_speed : ℚ
  morph_cooldown : ℚ
  last_morph : List (Nat × ℚ)
deriving DecidableEq

/-- `CollisionManager.__init__`: the body only assigns the arguments to
attributes and initializes the empty `_last_morph` dict; it contains no
validation, no assert and no raise, so construction always returns
normally.  The `Except` wrapper makes the absence of a construction-time
configuration error observable: the result is always `.ok`. -/
def initCollisionManager (img_map : List (String × String)) (assets_present : Bool)
    (cell_size : ℤ) (restitution separation_bias min_speed morph_cooldown : ℚ) :
    Except String CollisionManager :=
  .ok ⟨img_map, assets_present, cell_size, restitution, separation_bias,
    min_speed, morph_cooldown, []⟩

/-- Claim C9 (amended): constructing the collision manager with a
malformed configuration — `cell_size ≤ 0` or negative `min_speed` — does
NOT fail: `__init__` performs no validation and stores the parameters
unchanged, so per-tick resolution proceeds with the malformed
configuration. -/
theorem initCollisionManager_total (im : List (String × String)) (ap : Bool)
    (cz : ℤ) (r sb ms mc : ℚ) (hbad : cz ≤ 0 ∨ ms < 0) :
    initCollisionManager im ap cz r sb ms mc
      = .ok ⟨im, ap, cz, r, sb, ms, mc, []⟩ := rfl

/-- Claim C9 witness: cell_size 0 and min_speed -1 are accepted. -/
theorem initCollisionManager_total_witness :
    ((0 : ℤ) ≤ 0 ∨ (-1 : ℚ) < 0) ∧
    initCollisionManager [] false 0 1 (101/100) (-1) (6/100)
      = .ok ⟨[], false, 0, 1, 101/100, -1, 6/100, []⟩ :=
  ⟨Or.inl le_rfl,
   initCollisionManager_total [] false 0 1 (101/100) (-1) (6/100) (Or.inl le_rfl)⟩

/-- Claim C9 counterexample: the claim says construction with
`cell_size ≤ 0` or negative `min_speed` fails fast with a configuration
error; in fact `__init__` succeeds, returning the manager with the
malformed values stored verbatim. -/
theorem initCollisionManager_counterexample :
    ((0 : ℤ) ≤ 0 ∨ (-1 : ℚ) < 0) ∧
    initCollisionManager [("paper", "img/paper.png")] true 0 1 (101/100) (-1) (6/100)
      = .ok ⟨[("paper", "img/paper.png")], true, 0, 1, 101/100, -1, 6/100, []⟩ :=
  ⟨Or.inl le_rfl, rfl⟩

/- ------------------------------------------------------------------ -/
/- Claim C10: the cached-morph fast path is unreachable               -/
/- ------------------------------------------------------------------ -/

/-- Paths `_try_morph` can take to perform a morph: the cached fast path
(`sprite.morph_to_cached(kind, cached_surface)`) or the slow fallback
(`sprite.morph_to(kind, img_path)` which loads and scales by path). -/
inductive MorphPath where
  | cached
  | fallback
deriving DecidableEq

/-- Attribute names bound on class `RPS` in `RPS.py`.  `morph_to_cached`
is absent: its `def` statement is nested inside the body of `morph_to`
(it merely creates a local function during each `morph_to` call) and is
never bound as a class or instance attribute, so
`hasattr(sprite, "morph_to_cached")` is false for every `RPS` sprite. -/
def rps_class_methods : List String :=
  ["__init__", "set_center", "set_size", "draw", "update",
   "get_collision_circle", "morph_to"]

/-- Attribute names of subclass `Scissors` (overrides only `__init__`). -/
def scissors_class_methods : List String := "__init__" :: rps_class_methods

/-- Attribute names of subclass `Stone` (overrides only `__init__`). -/
def stone_class_methods : List String := "__init__" :: rps_class_methods

/-- Attribute names of subclass `Paper` (overrides only `__init__`). -/
def paper_class_methods : List String := "__init__" :: rps_class_methods

/-- Branch selection in `_try_morph`: the fast path requires both
`self.assets is not None` and `hasattr(sprite, "morph_to_cached")`;
otherwise the `sprite.morph_to(...)` fallback runs. -/
def morphDispatch (assets_present : Bool) (methods : List String) : MorphPath :=
  if assets_present && methods.contains "morph_to_cached" then .cached else .fallback

/-- Claim C10: no RPS-family sprite exposes `morph_to_cached`, so
`_try_morph` always takes the slow load-and-scale `morph_to` fallback,
with or without a supplied asset cache. -/
theorem rps_sprites_always_fallback_morph :
    rps_class_methods.contains "morph_to_cached" = false ∧
    scissors_class_methods.contains "morph_to_cached" = false ∧
    stone_class_methods.contains "morph_to_cached" = false ∧
    paper_class_methods.contains "morph_to_cached" = false ∧
    morphDispatch true rps_class_methods = MorphPath.fallback ∧
    morphDispatch false rps_class_methods = MorphPath.fallback ∧
    morphDispatch true scissors_class_methods = MorphPath.fallback ∧
    morphDispatch false scissors_class_methods = MorphPath.fallback ∧
    morphDispatch true stone_class_methods = MorphPath.fallback ∧
    morphDispatch false stone_class_methods = MorphPath.fallback ∧
    morphDispatch true paper_class_methods = MorphPath.fallback ∧
    morphDispatch false paper_class_methods = MorphPath.fallback := by
  decide

end RPSEngine
